import Mathlib

/-!
# Verification of the pcap-analyzer-worker intake pipeline

Shallow embedding of the core of `src/parsers.js` and `src/index.js`:
the legacy-PCAP / PCAPNG metadata parser (`parsePcapBasic`), the
per-frame protocol dissector (`analyzePacketData`), the filename
classifier (`categorizeWarpFile`), the UTF-8 text decoder used by
`parseTextFile` (the WHATWG decoder with U+FFFD replacement, which is
what `TextDecoder('utf-8')` performs in non-fatal mode), and the upload
coordinator (`processUploadedFiles` together with the priority-based
selection in the `fetch` handler).

Byte buffers are `List Nat` (each entry one byte).  `DataView` reads in
the JavaScript are modelled by `byteAt`/`readU16`/`readU32`; all reads
performed by the embedded code paths under the theorems' hypotheses are
in bounds, matching the guarded reads of the source.
-/

namespace PcapWorker

/-- Byte `i` of the buffer, `data[i]` in the source (0 past the end; all guarded
reads in the source are in bounds, where this convention is irrelevant). -/
def byteAt (d : List Nat) (i : Nat) : Nat := d.getD i 0

/-- Models `DataView.getUint16(i, le)`. -/
def readU16 (le : Bool) (d : List Nat) (i : Nat) : Nat :=
  if le then byteAt d i + 256 * byteAt d (i + 1)
  else 256 * byteAt d i + byteAt d (i + 1)

/-- Models `DataView.getUint32(i, le)`. -/
def readU32 (le : Bool) (d : List Nat) (i : Nat) : Nat :=
  if le then
    byteAt d i + 256 * byteAt d (i + 1) + 65536 * byteAt d (i + 2) +
      16777216 * byteAt d (i + 3)
  else
    16777216 * byteAt d i + 65536 * byteAt d (i + 1) + 256 * byteAt d (i + 2) +
      byteAt d (i + 3)

/-- Little/big-endian 16-bit encoding of `n % 2^16`. -/
def encodeU16 (le : Bool) (n : Nat) : List Nat :=
  if le then [n % 256, n / 256 % 256] else [n / 256 % 256, n % 256]

/-- Little/big-endian 32-bit encoding of `n % 2^32`. -/
def encodeU32 (le : Bool) (n : Nat) : List Nat :=
  if le then [n % 256, n / 256 % 256, n / 65536 % 256, n / 16777216 % 256]
  else [n / 16777216 % 256, n / 65536 % 256, n / 256 % 256, n % 256]

/-- The metadata object returned by `parsePcapBasic` on success. -/
structure PcapMeta where
  format : String
  version : String
  snaplen : Nat
  network : Nat
  packetCount : Nat
  fileSize : Nat
deriving DecidableEq, Repr

/-- Result of `parsePcapBasic`: either `{error: msg}` or the metadata. -/
inductive PcapResult where
  | err (msg : String)
  | meta (m : PcapMeta)
deriving DecidableEq, Repr

/-- The legacy-PCAP packet-counting loop of `parsePcapBasic`
(`src/parsers.js` lines 99-111): `capturedLength` stands for
`readU32 le d (offset + 8)`.  Guards make every `DataView` read in
bounds, so the source's `catch` never fires. -/
def pcapCountLoop (le : Bool) (d : List Nat) (offset count : Nat) : Nat :=
  if h1 : offset + 16 ≤ d.length then
    if h2 : readU32 le d (offset + 8) > 65535 ∨
        offset + 16 + readU32 le d (offset + 8) > d.length then count
    else pcapCountLoop le d (offset + 16 + readU32 le d (offset + 8)) (count + 1)
  else count
termination_by d.length - offset
decreasing_by simp_wf; omega

/-- The PCAPNG block-walking loop of `parsePcapBasic`
(`src/parsers.js` lines 62-80): `blockType` is `readU32 true d offset`,
`blockLength` is `readU32 true d (offset + 4)`. -/
def pcapngCountLoop (d : List Nat) (offset count : Nat) : Nat :=
  if h1 : offset + 8 ≤ d.length then
    if h2 : readU32 true d (offset + 4) < 12 ∨
        offset + readU32 true d (offset + 4) > d.length then count
    else
      pcapngCountLoop d (offset + readU32 true d (offset + 4))
        (if readU32 true d offset = 6 ∨ readU32 true d offset = 3 ∨
            readU32 true d offset = 2 then count + 1 else count)
  else count
termination_by d.length - offset
decreasing_by simp_wf; omega

/-- The function `parsePcapBasic` from `src/parsers.js` (lines 41-121). -/
def parsePcapBasic (d : List Nat) : PcapResult :=
  if d.length < 24 then .err "Invalid PCAP file: too small"
  else
    let magicNumber := readU32 true d 0
    let isPcap := magicNumber = 0xa1b2c3d4 ∨ magicNumber = 0xd4c3b2a1
    let isPcapNg := magicNumber = 0x0a0d0d0a
    if ¬isPcap ∧ ¬isPcapNg then .err "Invalid PCAP file: unrecognized magic number"
    else if isPcapNg then
      .meta { format := "PCAPNG", version := "NG", snaplen := 65535, network := 1,
              packetCount := pcapngCountLoop d 0 0, fileSize := d.length }
    else
      let isLittleEndian := magicNumber = 0xa1b2c3d4
      .meta { format := "PCAP",
              version := toString (readU16 isLittleEndian d 4) ++ "." ++
                toString (readU16 isLittleEndian d 6),
              snaplen := readU32 isLittleEndian d 16,
              network := readU32 isLittleEndian d 20,
              packetCount := pcapCountLoop isLittleEndian d 24 0,
              fileSize := d.length }

/-- A logical legacy-PCAP record: 16-byte record header fields plus the
payload; the captured-length field is `payload.length` (a well-formed
record carries exactly its declared number of payload bytes). -/
structure PcapRecord where
  tsSec : Nat
  tsUsec : Nat
  origLen : Nat
  payload : List Nat

/-- Byte encoding of one legacy record at a given endianness. -/
def encodeRecord (le : Bool) (r : PcapRecord) : List Nat :=
  encodeU32 le r.tsSec ++ encodeU32 le r.tsUsec ++ encodeU32 le r.payload.length ++
    encodeU32 le r.origLen ++ r.payload

def encodeRecords (le : Bool) : List PcapRecord → List Nat
  | [] => []
  | r :: rs => encodeRecord le r ++ encodeRecords le rs

/-- The logical fields of the 24-byte legacy global header (the magic is
implied by the chosen endianness). -/
structure PcapHeader where
  versionMajor : Nat
  versionMinor : Nat
  thiszone : Nat
  sigfigs : Nat
  snaplen : Nat
  network : Nat

/-- Byte encoding of the legacy global header: little-endian encoding
makes the first four bytes `D4 C3 B2 A1`, big-endian `A1 B2 C3 D4`. -/
def encodeGlobalHeader (le : Bool) (h : PcapHeader) : List Nat :=
  encodeU32 le 0xa1b2c3d4 ++ encodeU16 le h.versionMajor ++ encodeU16 le h.versionMinor ++
    encodeU32 le h.thiszone ++ encodeU32 le h.sigfigs ++ encodeU32 le h.snaplen ++
    encodeU32 le h.network

/-- Trailing bytes after the last well-formed record that make the
legacy loop stop: fewer than 16 bytes remain, or the declared captured
length exceeds the 65535 sanity bound, or the declared payload would
overrun the buffer. -/
def isCorruptTail (le : Bool) (t : List Nat) : Prop :=
  t.length < 16 ∨ 65535 < readU32 le t 8 ∨ t.length < 16 + readU32 le t 8

instance (le : Bool) (t : List Nat) : Decidable (isCorruptTail le t) := by
  unfold isCorruptTail; infer_instance

/-- A PCAPNG block: 32-bit type, 32-bit total length, body, and the
total length repeated at the end; the declared total length of a
well-formed block is `12 + body.length`. -/
structure NgBlock where
  ty : Nat
  body : List Nat
deriving DecidableEq

def encodeBlock (b : NgBlock) : List Nat :=
  encodeU32 true b.ty ++ encodeU32 true (12 + b.body.length) ++ b.body ++
    encodeU32 true (12 + b.body.length)

def encodeBlocks : List NgBlock → List Nat
  | [] => []
  | b :: bs => encodeBlock b ++ encodeBlocks bs

/-- Trailing bytes that make the PCAPNG block walk stop: fewer than 8
bytes remain, or the declared block length is under 12, or it would
overrun the buffer. -/
def isCorruptNgTail (t : List Nat) : Prop :=
  t.length < 8 ∨ readU32 true t 4 < 12 ∨ t.length < readU32 true t 4

instance (t : List Nat) : Decidable (isCorruptNgTail t) := by
  unfold isCorruptNgTail; infer_instance

/-- Models `Array.from(data.slice(i, i + 4)).join(".")`: dotted-decimal IPv4
rendering (clamped, as `slice` is). -/
def ipv4Str (d : List Nat) (i : Nat) : String :=
  String.intercalate "." (((d.drop i).take 4).map toString)

/-- The TCP flag list built from bits `0x02`/`0x10`/`0x01`/`0x04`/`0x08`
in the source's push order, joined with commas. -/
def tcpFlagsStr (flags : Nat) : String :=
  String.intercalate ","
    ((if flags &&& 0x02 ≠ 0 then ["SYN"] else []) ++
     (if flags &&& 0x10 ≠ 0 then ["ACK"] else []) ++
     (if flags &&& 0x01 ≠ 0 then ["FIN"] else []) ++
     (if flags &&& 0x04 ≠ 0 then ["RST"] else []) ++
     (if flags &&& 0x08 ≠ 0 then ["PSH"] else []))

/-- Models `n.toString(16)` (lowercase hex, as in JavaScript). -/
def natToHex (n : Nat) : String := String.mk (Nat.toDigits 16 n)

/-- Models `s.padStart(4, "0")`. -/
def padStart4 (s : String) : String :=
  String.join (List.replicate (4 - s.length) "0") ++ s

/-- Models `b.toString(16).padStart(2, "0")`. -/
def hex2 (b : Nat) : String :=
  String.join (List.replicate (2 - (natToHex b).length) "0") ++ natToHex b

/-- Models the regex match by groups of 1 to 4 characters: split into greedy groups of up to four
characters (the nonempty-input case of the regex match). -/
def chunk4 (cs : List Char) (fuel : Nat) : List String :=
  match fuel with
  | 0 => []
  | fuel + 1 =>
    if cs = [] then [] else String.mk (cs.take 4) :: chunk4 (cs.drop 4) fuel

/-- Sixteen-byte IPv6 address rendering: two-digit hex per byte, joined, then
split into 4-hex-digit groups joined with colons. -/
def ipv6Str (d : List Nat) (i : Nat) : String :=
  String.intercalate ":"
    (chunk4 (String.join (((d.drop i).take 16).map hex2)).data
      (String.join (((d.drop i).take 16).map hex2)).data.length)

/-- Models `maxLen || (data.length - offset)` (a passed 0 is falsy in JS). -/
def packetLenOf (d : List Nat) (offset : Nat) (maxLen : Option Nat) : Nat :=
  match maxLen with
  | some m => if m = 0 then d.length - offset else m
  | none => d.length - offset

/-- The function `analyzePacketData` from `src/parsers.js` (lines 241-355), yielding
the list of pushed info strings.  All reads performed on the branches
taken under the theorems below are within the frame, so the source's
`catch` wrapper never fires there. -/
def analyzePacketData (d : List Nat) (offset : Nat) (maxLen : Option Nat) : List String :=
  let packetLen := packetLenOf d offset maxLen
  if packetLen < 14 then ["  [Packet too small]"]
  else
    let etherType := readU16 false d (offset + 12)
    if etherType = 0x0800 ∧ 34 ≤ packetLen then
      let ipHeaderLen := (byteAt d (offset + 14) &&& 0x0f) * 4
      let ipProtocol := byteAt d (offset + 23)
      let srcIP := ipv4Str d (offset + 26)
      let dstIP := ipv4Str d (offset + 30)
      let ttl := byteAt d (offset + 22)
      let pd :=
        if ipProtocol = 6 ∧ 34 + ipHeaderLen + 4 ≤ packetLen then
          let tcpOffset := offset + 14 + ipHeaderLen
          let srcPort := readU16 false d tcpOffset
          let dstPort := readU16 false d (tcpOffset + 2)
          let flags := byteAt d (tcpOffset + 13)
          let ann :=
            if dstPort = 80 ∨ srcPort = 80 then " (HTTP)"
            else if dstPort = 443 ∨ srcPort = 443 then " (HTTPS)"
            else if dstPort = 22 ∨ srcPort = 22 then " (SSH)"
            else if dstPort = 53 ∨ srcPort = 53 then " (DNS over TCP)"
            else ""
          ("TCP", " | Port " ++ toString srcPort ++ " → " ++ toString dstPort ++
            " [" ++ tcpFlagsStr flags ++ "]" ++ ann)
        else if ipProtocol = 17 ∧ 34 + ipHeaderLen + 4 ≤ packetLen then
          let udpOffset := offset + 14 + ipHeaderLen
          let srcPort := readU16 false d udpOffset
          let dstPort := readU16 false d (udpOffset + 2)
          let ann :=
            if dstPort = 53 ∨ srcPort = 53 then " (DNS)"
            else if dstPort = 67 ∨ dstPort = 68 then " (DHCP)"
            else if dstPort = 123 then " (NTP)"
            else if dstPort = 500 then " (IKE/IPsec)"
            else ""
          ("UDP", " | Port " ++ toString srcPort ++ " → " ++ toString dstPort ++ ann)
        else if ipProtocol = 1 then
          if 34 + ipHeaderLen + 2 ≤ packetLen then
            let icmpType := byteAt d (offset + 34)
            let icmpCode := byteAt d (offset + 35)
            let msg :=
              if icmpType = 0 then "Echo Reply (Ping response)"
              else if icmpType = 8 then "Echo Request (Ping)"
              else if icmpType = 3 then
                "Destination Unreachable (code " ++ toString icmpCode ++ ")"
              else if icmpType = 11 then "Time Exceeded"
              else "Type " ++ toString icmpType ++ " Code " ++ toString icmpCode
            ("ICMP", " | " ++ msg)
          else ("IPv4", "")
        else ("IPv4", "")
      ["  " ++ pd.1 ++ ": " ++ srcIP ++ " → " ++ dstIP ++ pd.2] ++
        (if ttl < 10 then ["  ⚠️  Low TTL: " ++ toString ttl] else [])
    else if etherType = 0x0806 ∧ 28 ≤ packetLen then
      let opcode := readU16 false d (offset + 20)
      let senderIP := ipv4Str d (offset + 28)
      let targetIP := ipv4Str d (offset + 38)
      let operation :=
        if opcode = 1 then "Request" else if opcode = 2 then "Reply" else "Unknown"
      ["  ARP " ++ operation ++ ": Who has " ++ targetIP ++ "? Tell " ++ senderIP]
    else if etherType = 0x86DD ∧ 54 ≤ packetLen then
      let nextHeader := byteAt d (offset + 20)
      let srcIP := ipv6Str d (offset + 22)
      let dstIP := ipv6Str d (offset + 38)
      let protocol :=
        if nextHeader = 6 then "TCP over IPv6"
        else if nextHeader = 17 then "UDP over IPv6"
        else if nextHeader = 58 then "ICMPv6"
        else "IPv6"
      ["  " ++ protocol ++ ": " ++ srcIP ++ " → " ++ dstIP]
    else ["  EtherType: 0x" ++ padStart4 (natToHex etherType)]

/-- A 34-byte Ethernet + IPv4 frame declaring protocol 6 (TCP): the
frame ends right after the 20-byte IP header (source IP `1.2.3.4`,
destination IP `5.6.7.8`, TTL 64), with no TCP header bytes. -/
def tcpFrame34 : List Nat :=
  List.replicate 12 0 ++ [8, 0] ++
  [0x45, 0, 0, 20, 0, 0, 0x40, 0, 64, 6, 0, 0] ++ [1, 2, 3, 4] ++ [5, 6, 7, 8]

/-- A 58-byte Ethernet + IPv4 + TCP frame: source port 1000,
destination port 443, SYN flag, 4 payload bytes. -/
def tcpFrame58 : List Nat :=
  List.replicate 12 0 ++ [8, 0] ++
  [0x45, 0, 0, 44, 0, 0, 0x40, 0, 64, 6, 0, 0] ++ [1, 2, 3, 4] ++ [5, 6, 7, 8] ++
  [3, 232, 1, 187] ++ [0, 0, 0, 0] ++ [0, 0, 0, 0] ++ [0x50, 2, 0, 0] ++
  [0, 0, 0, 0] ++ [9, 9, 9, 9]

/-- A 28-byte EtherType `0x0806` (ARP) frame with opcode 1 at offset
20; bytes 28 onward (sender/target IPs) are absent. -/
def arpFrame28 : List Nat :=
  List.replicate 12 0 ++ [8, 6] ++ List.replicate 6 0 ++ [0, 1] ++ List.replicate 6 0

/-- Fuel-indexed variant of the legacy counting loop: `none` when the
fuel runs out before the loop finishes. -/
def pcapCountLoopF : Nat → Bool → List Nat → Nat → Nat → Option Nat
  | 0, _, _, _, _ => none
  | fuel + 1, le, d, offset, count =>
    if offset + 16 ≤ d.length then
      if readU32 le d (offset + 8) > 65535 ∨
          offset + 16 + readU32 le d (offset + 8) > d.length then some count
      else pcapCountLoopF fuel le d (offset + 16 + readU32 le d (offset + 8)) (count + 1)
    else some count

/-- Fuel-indexed variant of the PCAPNG block walk. -/
def pcapngCountLoopF : Nat → List Nat → Nat → Nat → Option Nat
  | 0, _, _, _ => none
  | fuel + 1, d, offset, count =>
    if offset + 8 ≤ d.length then
      if readU32 true d (offset + 4) < 12 ∨
          offset + readU32 true d (offset + 4) > d.length then some count
      else
        pcapngCountLoopF fuel d (offset + readU32 true d (offset + 4))
          (if readU32 true d offset = 6 ∨ readU32 true d offset = 3 ∨
              readU32 true d offset = 2 then count + 1 else count)
    else some count

/-- Models `filename.includes(pattern)`. -/
def strIncludes (s pat : String) : Bool := decide (pat.data <:+: s.data)

/-- Suffix test, `s.endsWith(suffix)` in the source. -/
def strEndsWith (s suffix : String) : Bool := decide (suffix.data <:+ s.data)

/-- The ordered category table of `categorizeWarpFile` (order is
observable behaviour and is preserved exactly). -/
def warpCategories : List (String × List String) :=
  [("connection", ["daemon.log", "connectivity.txt", "warp-status.txt", "boringtun.log"]),
   ("dns", ["daemon_dns.log", "dns-check.txt", "dns_stats.log", "dig.txt", "resolv.conf"]),
   ("network", ["ifconfig.txt", "ipconfig.txt", "netstat.txt", "route.txt", "traceroute.txt"]),
   ("config", ["warp-settings.txt", "warp-account.txt", "mdm.plist", "mdm.xml"]),
   ("system", ["sysinfo.json", "platform.txt", "version.txt", "date.txt"]),
   ("performance", ["stats.log", "warp-stats.txt", "warp-bus-metrics.txt"]),
   ("security", ["warp-device-posture.txt", "firewall-rules.txt", "installed_cert.pem"]),
   ("pcap", [".pcap", ".pcapng", ".qlog"])]

/-- The classifier `categorizeWarpFile`: first category (in table order) one of whose
patterns occurs in the filename; `connection`/`dns` are high priority,
the other categories medium, and the default is `(other, low)`. -/
def categorizeWarpFile (filename : String) : String × String :=
  match warpCategories.find? (fun c => c.2.any fun pat => strIncludes filename pat) with
  | some c => (c.1, if c.1 = "connection" ∨ c.1 = "dns" then "high" else "medium")
  | none => ("other", "low")

/-- Modelled from the spec (§4.1 FileClassifier): iterate the fixed
ordered table, return on the first category with a matching pattern,
priority High for Connection/DNS and Medium for the rest, defaulting to
(Other, Low).  Used as the refinement target for C8. -/
def classifySpecTable : List (String × List String) → String → String × String
  | [], _ => ("other", "low")
  | (cat, pats) :: rest, fn =>
    if pats.any (fun pat => strIncludes fn pat) then
      (cat, if cat = "connection" ∨ cat = "dns" then "high" else "medium")
    else classifySpecTable rest fn

/-- Modelled from the spec: the classifier contract of §4.1 over the
source's pattern table. -/
def classifySpec (fn : String) : String × String := classifySpecTable warpCategories fn

/-- The WHATWG UTF-8 decoder with U+FFFD replacement — the exact
algorithm `TextDecoder('utf-8')` runs in its default non-fatal mode;
it never fails.  State: pending code point, bytes seen, bytes needed,
and the lower/upper boundaries for the next continuation byte.  An
invalid continuation byte is reprocessed after emitting U+FFFD. -/
def utf8Run : List Nat → Nat → Nat → Nat → Nat → Nat → List Nat
  | [], _, _, needed, _, _ => if needed ≠ 0 then [0xFFFD] else []
  | b :: rest, cp, seen, needed, lb, ub =>
    if needed = 0 then
      if b ≤ 0x7F then b :: utf8Run rest 0 0 0 0x80 0xBF
      else if 0xC2 ≤ b ∧ b ≤ 0xDF then utf8Run rest (b &&& 0x1F) 0 1 0x80 0xBF
      else if 0xE0 ≤ b ∧ b ≤ 0xEF then
        utf8Run rest (b &&& 0x0F) 0 2 (if b = 0xE0 then 0xA0 else 0x80)
          (if b = 0xED then 0x9F else 0xBF)
      else if 0xF0 ≤ b ∧ b ≤ 0xF4 then
        utf8Run rest (b &&& 0x07) 0 3 (if b = 0xF0 then 0x90 else 0x80)
          (if b = 0xF4 then 0x8F else 0xBF)
      else 0xFFFD :: utf8Run rest 0 0 0 0x80 0xBF
    else
      if b < lb ∨ ub < b then
        -- the WHATWG "restore byte and reprocess" step, with the initial-
        -- state handling of the restored byte inlined so that the
        -- recursion stays structural on the byte list
        0xFFFD ::
          (if b ≤ 0x7F then b :: utf8Run rest 0 0 0 0x80 0xBF
           else if 0xC2 ≤ b ∧ b ≤ 0xDF then utf8Run rest (b &&& 0x1F) 0 1 0x80 0xBF
           else if 0xE0 ≤ b ∧ b ≤ 0xEF then
             utf8Run rest (b &&& 0x0F) 0 2 (if b = 0xE0 then 0xA0 else 0x80)
               (if b = 0xED then 0x9F else 0xBF)
           else if 0xF0 ≤ b ∧ b ≤ 0xF4 then
             utf8Run rest (b &&& 0x07) 0 3 (if b = 0xF0 then 0x90 else 0x80)
               (if b = 0xF4 then 0x8F else 0xBF)
           else 0xFFFD :: utf8Run rest 0 0 0 0x80 0xBF)
      else if seen + 1 = needed then
        ((cp <<< 6) ||| (b &&& 0x3F)) :: utf8Run rest 0 0 0 0x80 0xBF
      else utf8Run rest ((cp <<< 6) ||| (b &&& 0x3F)) (seen + 1) needed 0x80 0xBF

/-- The function `parseTextFile`: UTF-8 decode with replacement; the decoder's
default mode also strips one leading byte-order mark. -/
def parseTextFile (d : List Nat) : String :=
  let cps := utf8Run d 0 0 0 0x80 0xBF
  String.mk ((match cps with | 0xFEFF :: rest => rest | _ => cps).map Char.ofNat)

/-- One uploaded file: name, MIME type and raw bytes. -/
structure RawFile where
  name : String
  fileType : String
  data : List Nat
deriving DecidableEq

/-- One entry of `allLogFiles`.  The `keyInfo` extraction
(`extractKeyInfo`) is not modelled: none of the verified claims concern
its contents and it cannot fail (all its parsing is internally
guarded). -/
structure LogFileEntry where
  filename : String
  content : String
  category : String
  priority : String
deriving DecidableEq

/-- Processing of the entries extracted from a ZIP file (the inner loop
of `processUploadedFiles`): `.pcap`-named members go to the capture
parser, everything else is decoded as text. -/
def processExtracted : List (String × List Nat) →
    List LogFileEntry × List (String × PcapResult)
  | [] => ([], [])
  | (filename, data) :: rest =>
    let acc := processExtracted rest
    if strEndsWith filename ".pcap" then
      (acc.1, (filename, parsePcapBasic data) :: acc.2)
    else
      ({ filename := filename, content := parseTextFile data,
         category := (categorizeWarpFile filename).1,
         priority := (categorizeWarpFile filename).2 } :: acc.1, acc.2)

/-- The coordinator `processUploadedFiles`: builds `(allLogFiles, allPcapMetadata)`.
The external ZIP extractor (`fflate`) is passed in as `extractZip`, as
the spec treats ArchiveReader as an external collaborator.  The
source's per-file `try/catch` never fires: text decoding is non-fatal
and cannot throw. -/
def processUploadedFiles (extractZip : List Nat → List (String × List Nat)) :
    List RawFile → List LogFileEntry × List (String × PcapResult)
  | [] => ([], [])
  | f :: fs =>
    let cur :=
      if strEndsWith f.name ".zip" ∨ f.fileType = "application/zip" then
        processExtracted (extractZip f.data)
      else if strEndsWith f.name ".pcap" then
        ([], [(f.name, parsePcapBasic f.data)])
      else
        ([{ filename := f.name, content := parseTextFile f.data,
            category := (categorizeWarpFile f.name).1,
            priority := (categorizeWarpFile f.name).2 }], [])
    let rest := processUploadedFiles extractZip fs
    (cur.1 ++ rest.1, cur.2 ++ rest.2)

/-- The evidence-set selection of the `fetch` handler (lines 194-203):
the first 10 high-priority entries followed by the first 5
medium-priority entries, in encounter order. -/
def selectFilesToAnalyze (logFiles : List LogFileEntry) : List LogFileEntry :=
  (logFiles.filter fun f => f.priority = "high").take 10 ++
    (logFiles.filter fun f => f.priority = "medium").take 5

/-- The `filesProcessed` object of the response (lines 215-221). -/
structure FilesProcessed where
  logFiles : Nat
  pcapFiles : Nat
  total : Nat
deriving DecidableEq

def mkFilesProcessed (logs : List LogFileEntry)
    (pcaps : List (String × PcapResult)) : FilesProcessed :=
  { logFiles := logs.length, pcapFiles := pcaps.length,
    total := logs.length + pcaps.length }

/-- A next-gen capture upload: its 28 bytes are one Section Header
Block, so byte 0 starts the PCAPNG magic `0x0A0D0D0A`, and the
filename carries the `.pcapng` extension. -/
def pcapngUpload : RawFile :=
  RawFile.mk "capture.pcapng" "" (encodeBlock (NgBlock.mk 0x0a0d0d0a (List.replicate 16 0)))

/-- Fifteen high-priority and eight medium-priority log entries. -/
def logs23 : List LogFileEntry :=
  List.replicate 15 (LogFileEntry.mk "daemon.log" "" "connection" "high") ++
    List.replicate 8 (LogFileEntry.mk "route.txt" "" "network" "medium")

/-! ## Theorems -/

/-! ## Basic read/encode lemmas -/

theorem length_encodeU16 (le : Bool) (n : Nat) : (encodeU16 le n).length = 2 := by
  cases le <;> simp [encodeU16]

theorem length_encodeU32 (le : Bool) (n : Nat) : (encodeU32 le n).length = 4 := by
  cases le <;> simp [encodeU32]

theorem byteAt_append_right (pre t : List Nat) (i : Nat) :
    byteAt (pre ++ t) (pre.length + i) = byteAt t i := by
  simp only [byteAt, List.getD, List.get?_eq_getElem?]
  rw [List.getElem?_append_right (by omega)]
  simp

theorem byteAt_append_of (pre t : List Nat) {j i : Nat} (h : j = pre.length + i) :
    byteAt (pre ++ t) j = byteAt t i := by
  subst h; exact byteAt_append_right pre t i

theorem readU16_append_of (b : Bool) (pre t : List Nat) {j i : Nat}
    (h : j = pre.length + i) :
    readU16 b (pre ++ t) j = readU16 b t i := by
  subst h
  simp only [readU16]
  rw [byteAt_append_right, byteAt_append_of pre t (show pre.length + i + 1 = pre.length + (i + 1) by omega)]

theorem readU32_append_of (b : Bool) (pre t : List Nat) {j i : Nat}
    (h : j = pre.length + i) :
    readU32 b (pre ++ t) j = readU32 b t i := by
  subst h
  simp only [readU32]
  rw [byteAt_append_right,
    byteAt_append_of pre t (show pre.length + i + 1 = pre.length + (i + 1) by omega),
    byteAt_append_of pre t (show pre.length + i + 2 = pre.length + (i + 2) by omega),
    byteAt_append_of pre t (show pre.length + i + 3 = pre.length + (i + 3) by omega)]

theorem readU16_encodeU16 (le : Bool) (n : Nat) (t : List Nat) :
    readU16 le (encodeU16 le n ++ t) 0 = n % 65536 := by
  cases le <;> simp [readU16, encodeU16, byteAt] <;> omega

theorem readU32_encodeU32 (le : Bool) (n : Nat) (t : List Nat) :
    readU32 le (encodeU32 le n ++ t) 0 = n % 4294967296 := by
  cases le <;> simp [readU32, encodeU32, byteAt] <;> omega

theorem length_encodeRecord (le : Bool) (r : PcapRecord) :
    (encodeRecord le r).length = 16 + r.payload.length := by
  simp [encodeRecord, length_encodeU32]; omega

theorem length_encodeGlobalHeader (le : Bool) (h : PcapHeader) :
    (encodeGlobalHeader le h).length = 24 := by
  simp [encodeGlobalHeader, length_encodeU32, length_encodeU16]

/-- On a buffer whose bytes from `pre.length` on form a corrupt tail,
the legacy counting loop stops immediately. -/
theorem pcapCountLoop_stop (le : Bool) (pre t : List Nat) (c : Nat)
    (h : isCorruptTail le t) :
    pcapCountLoop le (pre ++ t) pre.length c = c := by
  rw [pcapCountLoop]
  rcases Nat.lt_or_ge (pre.length + t.length) (pre.length + 16) with hlt | hge
  · rw [dif_neg (by simp only [List.length_append]; omega)]
  · have hlen : pre.length + 16 ≤ (pre ++ t).length := by
      simp only [List.length_append]; omega
    rw [dif_pos hlen, dif_pos ?_]
    rw [readU32_append_of le pre t rfl]
    simp only [List.length_append]
    rcases h with h | h | h
    · omega
    · left; omega
    · right; omega

/-- Reading the captured-length field (record offset 8) of an encoded
record recovers the payload length. -/
theorem readU32_encodeRecord_cl (le : Bool) (r : PcapRecord) (rest : List Nat) :
    readU32 le (encodeRecord le r ++ rest) 8 = r.payload.length % 4294967296 := by
  simp only [encodeRecord, List.append_assoc]
  rw [readU32_append_of le (encodeU32 le r.tsSec) _
    (show (8 : Nat) = (encodeU32 le r.tsSec).length + 4 by simp [length_encodeU32])]
  rw [readU32_append_of le (encodeU32 le r.tsUsec) _
    (show (4 : Nat) = (encodeU32 le r.tsUsec).length + 0 by simp [length_encodeU32])]
  rw [readU32_encodeU32]

/-- The legacy counting loop, started right after `pre`, counts exactly
the encoded well-formed records and then stops at the corrupt tail. -/
theorem pcapCountLoop_records (le : Bool) (rs : List PcapRecord) :
    ∀ (pre t : List Nat) (c : Nat),
    (∀ r ∈ rs, r.payload.length ≤ 65535) → isCorruptTail le t →
    pcapCountLoop le (pre ++ (encodeRecords le rs ++ t)) pre.length c = c + rs.length := by
  induction rs with
  | nil =>
    intro pre t c _ ht
    simpa [encodeRecords] using pcapCountLoop_stop le pre t c ht
  | cons r rs ih =>
    intro pre t c hwf ht
    have hr : r.payload.length ≤ 65535 := hwf r (by simp)
    have hdata : pre ++ (encodeRecords le (r :: rs) ++ t) =
        pre ++ (encodeRecord le r ++ (encodeRecords le rs ++ t)) := by
      simp [encodeRecords, List.append_assoc]
    rw [hdata, pcapCountLoop]
    have hlen : pre.length + 16 ≤
        (pre ++ (encodeRecord le r ++ (encodeRecords le rs ++ t))).length := by
      simp only [List.length_append, length_encodeRecord]; omega
    have hcl : readU32 le (pre ++ (encodeRecord le r ++ (encodeRecords le rs ++ t)))
        (pre.length + 8) = r.payload.length := by
      rw [readU32_append_of le pre _ rfl, readU32_encodeRecord_cl]
      omega
    rw [dif_pos hlen, dif_neg ?_]
    · rw [hcl]
      have hoff : pre.length + 16 + r.payload.length = (pre ++ encodeRecord le r).length := by
        simp [length_encodeRecord]; omega
      have hdata2 : pre ++ (encodeRecord le r ++ (encodeRecords le rs ++ t)) =
          (pre ++ encodeRecord le r) ++ (encodeRecords le rs ++ t) := by
        simp [List.append_assoc]
      rw [hoff, hdata2,
        ih (pre ++ encodeRecord le r) t (c + 1) (fun r' hr' => hwf r' (by simp [hr'])) ht]
      simp [List.length_cons]; omega
    · rw [hcl]
      simp only [List.length_append, length_encodeRecord]
      push_neg
      exact ⟨by omega, by omega⟩

/-- The magic read (always little-endian) of an encoded legacy header:
`D4 C3 B2 A1` reads as `0xa1b2c3d4`, `A1 B2 C3 D4` as `0xd4c3b2a1`. -/
theorem readMagic (le : Bool) (h : PcapHeader) (rest : List Nat) :
    readU32 true (encodeGlobalHeader le h ++ rest) 0 =
      if le then 0xa1b2c3d4 else 0xd4c3b2a1 := by
  simp only [encodeGlobalHeader, List.append_assoc]
  cases le <;> norm_num [readU32, encodeU32, byteAt]

theorem readVersionMajor (le : Bool) (h : PcapHeader) (rest : List Nat) :
    readU16 le (encodeGlobalHeader le h ++ rest) 4 = h.versionMajor % 65536 := by
  simp only [encodeGlobalHeader, List.append_assoc]
  rw [readU16_append_of le (encodeU32 le 0xa1b2c3d4) _
    (show (4 : Nat) = (encodeU32 le 0xa1b2c3d4).length + 0 by simp [length_encodeU32]),
    readU16_encodeU16]

theorem readVersionMinor (le : Bool) (h : PcapHeader) (rest : List Nat) :
    readU16 le (encodeGlobalHeader le h ++ rest) 6 = h.versionMinor % 65536 := by
  simp only [encodeGlobalHeader, List.append_assoc]
  rw [readU16_append_of le (encodeU32 le 0xa1b2c3d4) _
    (show (6 : Nat) = (encodeU32 le 0xa1b2c3d4).length + 2 by simp [length_encodeU32]),
    readU16_append_of le (encodeU16 le h.versionMajor) _
    (show (2 : Nat) = (encodeU16 le h.versionMajor).length + 0 by simp [length_encodeU16]),
    readU16_encodeU16]

theorem readSnaplen (le : Bool) (h : PcapHeader) (rest : List Nat) :
    readU32 le (encodeGlobalHeader le h ++ rest) 16 = h.snaplen % 4294967296 := by
  simp only [encodeGlobalHeader, List.append_assoc]
  rw [readU32_append_of le (encodeU32 le 0xa1b2c3d4) _
    (show (16 : Nat) = (encodeU32 le 0xa1b2c3d4).length + 12 by simp [length_encodeU32]),
    readU32_append_of le (encodeU16 le h.versionMajor) _
    (show (12 : Nat) = (encodeU16 le h.versionMajor).length + 10 by simp [length_encodeU16]),
    readU32_append_of le (encodeU16 le h.versionMinor) _
    (show (10 : Nat) = (encodeU16 le h.versionMinor).length + 8 by simp [length_encodeU16]),
    readU32_append_of le (encodeU32 le h.thiszone) _
    (show (8 : Nat) = (encodeU32 le h.thiszone).length + 4 by simp [length_encodeU32]),
    readU32_append_of le (encodeU32 le h.sigfigs) _
    (show (4 : Nat) = (encodeU32 le h.sigfigs).length + 0 by simp [length_encodeU32]),
    readU32_encodeU32]

theorem readNetwork (le : Bool) (h : PcapHeader) (rest : List Nat) :
    readU32 le (encodeGlobalHeader le h ++ rest) 20 = h.network % 4294967296 := by
  simp only [encodeGlobalHeader, List.append_assoc]
  rw [readU32_append_of le (encodeU32 le 0xa1b2c3d4) _
    (show (20 : Nat) = (encodeU32 le 0xa1b2c3d4).length + 16 by simp [length_encodeU32]),
    readU32_append_of le (encodeU16 le h.versionMajor) _
    (show (16 : Nat) = (encodeU16 le h.versionMajor).length + 14 by simp [length_encodeU16]),
    readU32_append_of le (encodeU16 le h.versionMinor) _
    (show (14 : Nat) = (encodeU16 le h.versionMinor).length + 12 by simp [length_encodeU16]),
    readU32_append_of le (encodeU32 le h.thiszone) _
    (show (12 : Nat) = (encodeU32 le h.thiszone).length + 8 by simp [length_encodeU32]),
    readU32_append_of le (encodeU32 le h.sigfigs) _
    (show (8 : Nat) = (encodeU32 le h.sigfigs).length + 4 by simp [length_encodeU32]),
    readU32_append_of le (encodeU32 le h.snaplen) _
    (show (4 : Nat) = (encodeU32 le h.snaplen).length + 0 by simp [length_encodeU32]),
    readU32_encodeU32]

/-- Parsing an encoded legacy capture (either endianness): the header
fields are recovered (modulo their field widths) and `packetCount` is
exactly the number of well-formed records before the corrupt tail. -/
theorem parsePcapBasic_encodeLegacy (le : Bool) (hd : PcapHeader) (rs : List PcapRecord)
    (t : List Nat) (hwf : ∀ r ∈ rs, r.payload.length ≤ 65535) (ht : isCorruptTail le t) :
    parsePcapBasic (encodeGlobalHeader le hd ++ (encodeRecords le rs ++ t)) =
      PcapResult.meta
        { format := "PCAP",
          version := toString (hd.versionMajor % 65536) ++ "." ++
            toString (hd.versionMinor % 65536),
          snaplen := hd.snaplen % 4294967296,
          network := hd.network % 4294967296,
          packetCount := rs.length,
          fileSize := 24 + ((encodeRecords le rs).length + t.length) } := by
  have hlen : (encodeGlobalHeader le hd ++ (encodeRecords le rs ++ t)).length =
      24 + ((encodeRecords le rs).length + t.length) := by
    simp [length_encodeGlobalHeader]
  have hcount : pcapCountLoop le (encodeGlobalHeader le hd ++ (encodeRecords le rs ++ t)) 24 0 =
      rs.length := by
    have h := pcapCountLoop_records le rs (encodeGlobalHeader le hd) t 0 hwf ht
    rw [length_encodeGlobalHeader] at h
    simpa using h
  have hmagic := readMagic le hd (encodeRecords le rs ++ t)
  have hmaj := readVersionMajor le hd (encodeRecords le rs ++ t)
  have hmin := readVersionMinor le hd (encodeRecords le rs ++ t)
  have hsnap := readSnaplen le hd (encodeRecords le rs ++ t)
  have hnet := readNetwork le hd (encodeRecords le rs ++ t)
  cases le <;>
    simp only [if_true, if_false, Bool.false_eq_true, ite_true, ite_false] at hmagic <;>
    simp only [parsePcapBasic, hmagic, hlen, hmaj, hmin, hsnap, hnet, hcount] <;>
    norm_num <;>
    simp [hmaj, hmin, hsnap, hnet, hcount]

theorem length_encodeRecords (le : Bool) (rs : List PcapRecord) :
    (encodeRecords le rs).length = (rs.map fun r => 16 + r.payload.length).sum := by
  induction rs with
  | nil => simp [encodeRecords]
  | cons r rs ih => simp [encodeRecords, length_encodeRecord, ih]

/-- C1: a legacy capture made of a 24-byte global header, `N` well-formed
records (16-byte record header whose captured length is the payload
length, at most 65535, followed by exactly that payload) and a corrupt
tail parses without error and reports `packetCount = N`: the corrupt
tail only stops iteration. -/
theorem legacy_wellformed_records_count (le : Bool) (hd : PcapHeader)
    (rs : List PcapRecord) (t : List Nat)
    (hwf : ∀ r ∈ rs, r.payload.length ≤ 65535) (ht : isCorruptTail le t) :
    ∃ m : PcapMeta,
      parsePcapBasic (encodeGlobalHeader le hd ++ (encodeRecords le rs ++ t)) =
        PcapResult.meta m ∧ m.packetCount = rs.length :=
  ⟨_, parsePcapBasic_encodeLegacy le hd rs t hwf ht, rfl⟩

/-- Witness for C1 at a concrete one-record capture with a 3-byte
corrupt tail. -/
theorem legacy_wellformed_records_count_witness :
    (∀ r ∈ [PcapRecord.mk 0 0 1 [171]], r.payload.length ≤ 65535) ∧
    isCorruptTail true [1, 2, 3] ∧
    ∃ m : PcapMeta,
      parsePcapBasic (encodeGlobalHeader true (PcapHeader.mk 2 4 0 0 65535 1) ++
        (encodeRecords true [PcapRecord.mk 0 0 1 [171]] ++ [1, 2, 3])) =
        PcapResult.meta m ∧ m.packetCount = 1 :=
  ⟨by rintro r hr; rcases List.mem_singleton.mp hr with rfl; decide, by decide,
    legacy_wellformed_records_count true (PcapHeader.mk 2 4 0 0 65535 1)
      [PcapRecord.mk 0 0 1 [171]] [1, 2, 3]
      (by rintro r hr; rcases List.mem_singleton.mp hr with rfl; decide) (by decide)⟩

/-- C3: the little-endian encoding (first bytes `D4 C3 B2 A1`) and the
big-endian encoding (first bytes `A1 B2 C3 D4`) of one logical legacy
capture parse to equal results, and the little-endian parse recovers the
logical header fields (endianness is resolved by the magic). -/
theorem legacy_endianness_roundtrip (hd : PcapHeader) (rs : List PcapRecord)
    (hwf : ∀ r ∈ rs, r.payload.length ≤ 65535)
    (hmaj : hd.versionMajor < 65536) (hmin : hd.versionMinor < 65536)
    (hsnap : hd.snaplen < 4294967296) (hnet : hd.network < 4294967296) :
    parsePcapBasic (encodeGlobalHeader true hd ++ encodeRecords true rs) =
      parsePcapBasic (encodeGlobalHeader false hd ++ encodeRecords false rs) ∧
    parsePcapBasic (encodeGlobalHeader true hd ++ encodeRecords true rs) =
      PcapResult.meta
        { format := "PCAP",
          version := toString hd.versionMajor ++ "." ++ toString hd.versionMinor,
          snaplen := hd.snaplen,
          network := hd.network,
          packetCount := rs.length,
          fileSize := 24 + (rs.map fun r => 16 + r.payload.length).sum } := by
  have h1 := parsePcapBasic_encodeLegacy true hd rs [] hwf (by decide)
  have h2 := parsePcapBasic_encodeLegacy false hd rs [] hwf (by decide)
  rw [List.append_nil] at h1 h2
  rw [length_encodeRecords] at h1 h2
  rw [Nat.mod_eq_of_lt hmaj, Nat.mod_eq_of_lt hmin, Nat.mod_eq_of_lt hsnap,
    Nat.mod_eq_of_lt hnet] at h1 h2
  simp only [List.length_nil, Nat.add_zero] at h1 h2
  exact ⟨h1.trans h2.symm, h1⟩

/-- Witness for C3 at a concrete two-record capture. -/
theorem legacy_endianness_roundtrip_witness :
    (∀ r ∈ [PcapRecord.mk 1 2 3 [9, 8], PcapRecord.mk 4 5 6 []], r.payload.length ≤ 65535) ∧
    parsePcapBasic (encodeGlobalHeader true (PcapHeader.mk 2 4 0 0 262144 1) ++
        encodeRecords true [PcapRecord.mk 1 2 3 [9, 8], PcapRecord.mk 4 5 6 []]) =
      parsePcapBasic (encodeGlobalHeader false (PcapHeader.mk 2 4 0 0 262144 1) ++
        encodeRecords false [PcapRecord.mk 1 2 3 [9, 8], PcapRecord.mk 4 5 6 []]) :=
  ⟨by rintro r hr; rcases List.mem_cons.mp hr with rfl | hr
      · decide
      · rcases List.mem_singleton.mp hr with rfl; decide,
    (legacy_endianness_roundtrip (PcapHeader.mk 2 4 0 0 262144 1)
      [PcapRecord.mk 1 2 3 [9, 8], PcapRecord.mk 4 5 6 []]
      (by rintro r hr; rcases List.mem_cons.mp hr with rfl | hr
          · decide
          · rcases List.mem_singleton.mp hr with rfl; decide)
      (by decide) (by decide) (by decide) (by decide)).1⟩

theorem length_encodeBlock (b : NgBlock) :
    (encodeBlock b).length = 12 + b.body.length := by
  simp [encodeBlock, length_encodeU32]; omega

theorem pcapngCountLoop_stop (pre t : List Nat) (c : Nat) (h : isCorruptNgTail t) :
    pcapngCountLoop (pre ++ t) pre.length c = c := by
  rw [pcapngCountLoop]
  rcases Nat.lt_or_ge (pre.length + t.length) (pre.length + 8) with hlt | hge
  · rw [dif_neg (by simp only [List.length_append]; omega)]
  · have hlen : pre.length + 8 ≤ (pre ++ t).length := by
      simp only [List.length_append]; omega
    rw [dif_pos hlen, dif_pos ?_]
    rw [readU32_append_of true pre t rfl]
    simp only [List.length_append]
    rcases h with h | h | h
    · omega
    · left; omega
    · right; omega

theorem readU32_encodeBlock_type (b : NgBlock) (rest : List Nat) :
    readU32 true (encodeBlock b ++ rest) 0 = b.ty % 4294967296 := by
  simp only [encodeBlock, List.append_assoc]
  rw [readU32_encodeU32]

theorem readU32_encodeBlock_len (b : NgBlock) (rest : List Nat) :
    readU32 true (encodeBlock b ++ rest) 4 = (12 + b.body.length) % 4294967296 := by
  simp only [encodeBlock, List.append_assoc]
  rw [readU32_append_of true (encodeU32 true b.ty) _
    (show (4 : Nat) = (encodeU32 true b.ty).length + 0 by simp [length_encodeU32]),
    readU32_encodeU32]

/-- The PCAPNG walk over encoded blocks counts exactly those of type
2, 3 or 6, skips every other block by its declared length, then stops at
the corrupt tail. -/
theorem pcapngCountLoop_blocks (bs : List NgBlock) :
    ∀ (pre t : List Nat) (c : Nat),
    (∀ b ∈ bs, b.ty < 4294967296 ∧ 12 + b.body.length < 4294967296) →
    isCorruptNgTail t →
    pcapngCountLoop (pre ++ (encodeBlocks bs ++ t)) pre.length c =
      c + (bs.filter fun b => b.ty = 6 ∨ b.ty = 3 ∨ b.ty = 2).length := by
  induction bs with
  | nil =>
    intro pre t c _ ht
    simpa [encodeBlocks] using pcapngCountLoop_stop pre t c ht
  | cons b bs ih =>
    intro pre t c hb ht
    obtain ⟨hty, hbl⟩ := hb b (by simp)
    have hdata : pre ++ (encodeBlocks (b :: bs) ++ t) =
        pre ++ (encodeBlock b ++ (encodeBlocks bs ++ t)) := by
      simp [encodeBlocks, List.append_assoc]
    rw [hdata, pcapngCountLoop]
    have hlen : pre.length + 8 ≤
        (pre ++ (encodeBlock b ++ (encodeBlocks bs ++ t))).length := by
      simp only [List.length_append, length_encodeBlock]; omega
    have hblen : readU32 true (pre ++ (encodeBlock b ++ (encodeBlocks bs ++ t)))
        (pre.length + 4) = 12 + b.body.length := by
      rw [readU32_append_of true pre _ rfl, readU32_encodeBlock_len]
      omega
    have hbty : readU32 true (pre ++ (encodeBlock b ++ (encodeBlocks bs ++ t)))
        pre.length = b.ty := by
      rw [readU32_append_of true pre _ (by omega : pre.length = pre.length + 0),
        readU32_encodeBlock_type]
      omega
    rw [dif_pos hlen, dif_neg ?_]
    · rw [hblen, hbty]
      have hoff : pre.length + (12 + b.body.length) = (pre ++ encodeBlock b).length := by
        simp [length_encodeBlock]
      have hdata2 : pre ++ (encodeBlock b ++ (encodeBlocks bs ++ t)) =
          (pre ++ encodeBlock b) ++ (encodeBlocks bs ++ t) := by
        simp [List.append_assoc]
      rw [hoff, hdata2,
        ih (pre ++ encodeBlock b) t _ (fun b' hb' => hb b' (by simp [hb'])) ht]
      by_cases hP : b.ty = 6 ∨ b.ty = 3 ∨ b.ty = 2
      · simp [hP, List.filter_cons]; omega
      · simp [hP, List.filter_cons]
    · rw [hblen]
      simp only [List.length_append, length_encodeBlock]
      push_neg
      exact ⟨by omega, by omega⟩

/-- C2: a PCAPNG buffer (one Section Header Block, whose type field
`0x0A0D0D0A` is the magic, then arbitrary well-formed blocks, then a
corrupt tail) parses without error; `packetCount` counts exactly the
blocks of type `0x02`, `0x03` or `0x06`, all other block types are
skipped by their declared total length, and the corrupt tail only ends
the iteration.  A capture whose non-SHB blocks are all Interface
Description Blocks (type 1) therefore yields `packetCount = 0`. -/
theorem ng_packet_blocks_only_count (shb : NgBlock) (bs : List NgBlock) (t : List Nat)
    (hshb : shb.ty = 0x0a0d0d0a) (hbody : 12 ≤ shb.body.length)
    (hb : ∀ b ∈ shb :: bs, b.ty < 4294967296 ∧ 12 + b.body.length < 4294967296)
    (ht : isCorruptNgTail t) :
    parsePcapBasic (encodeBlocks (shb :: bs) ++ t) =
      PcapResult.meta
        { format := "PCAPNG", version := "NG", snaplen := 65535, network := 1,
          packetCount := (bs.filter fun b => b.ty = 6 ∨ b.ty = 3 ∨ b.ty = 2).length,
          fileSize := (encodeBlocks (shb :: bs) ++ t).length } := by
  have hsplit : encodeBlocks (shb :: bs) ++ t = encodeBlock shb ++ (encodeBlocks bs ++ t) := by
    simp [encodeBlocks, List.append_assoc]
  have hmagic : readU32 true (encodeBlocks (shb :: bs) ++ t) 0 = 0x0a0d0d0a := by
    rw [hsplit, readU32_encodeBlock_type, hshb]
  have hlen24 : ¬((encodeBlocks (shb :: bs) ++ t).length < 24) := by
    rw [hsplit]
    simp only [List.length_append, length_encodeBlock]
    omega
  have hcount : pcapngCountLoop (encodeBlocks (shb :: bs) ++ t) 0 0 =
      (bs.filter fun b => b.ty = 6 ∨ b.ty = 3 ∨ b.ty = 2).length := by
    have h := pcapngCountLoop_blocks (shb :: bs) [] t 0 hb ht
    simp only [List.nil_append, List.length_nil, Nat.zero_add] at h
    rw [h, List.filter_cons]
    have : ¬(shb.ty = 6 ∨ shb.ty = 3 ∨ shb.ty = 2) := by rw [hshb]; norm_num
    simp [this]
  simp only [parsePcapBasic, hmagic]
  rw [if_neg hlen24, if_neg (by norm_num), if_pos (by norm_num), hcount]

/-- Witness for C2: SHB followed by two Interface Description Blocks
yields `packetCount = 0`. -/
theorem ng_packet_blocks_only_count_witness :
    isCorruptNgTail [] ∧
    parsePcapBasic (encodeBlocks [NgBlock.mk 0x0a0d0d0a (List.replicate 16 0),
        NgBlock.mk 1 (List.replicate 8 0), NgBlock.mk 1 (List.replicate 8 0)] ++ []) =
      PcapResult.meta
        { format := "PCAPNG", version := "NG", snaplen := 65535, network := 1,
          packetCount := 0, fileSize := 68 } :=
  ⟨by decide,
    (ng_packet_blocks_only_count (NgBlock.mk 0x0a0d0d0a (List.replicate 16 0))
      [NgBlock.mk 1 (List.replicate 8 0), NgBlock.mk 1 (List.replicate 8 0)] []
      rfl (by decide) (by decide) (by decide)).trans (by decide)⟩

/-- C4 counterexample: the 34-byte Ethernet+IPv4+TCP frame of the claim
(EtherType `0x0800`, IP protocol 6, which cannot even contain TCP port
bytes) is dissected as plain `IPv4` — no TCP decoding and no HTTPS
annotation — because the TCP branch requires
`packetLen ≥ 34 + ipHeaderLen + 4 = 58` bytes. -/
theorem tcp_34byte_frame_not_dissected_as_tcp :
    analyzePacketData tcpFrame34 0 none = ["  IPv4: 1.2.3.4 → 5.6.7.8"] ∧
    ∀ s ∈ analyzePacketData tcpFrame34 0 none, ¬ "HTTPS".data <:+: s.data := by
  constructor
  · decide
  · decide

/-- C4 amended: an Ethernet+IPv4+TCP frame with a standard 20-byte IP
header and at least `34 + 20 + 4 = 58` bytes, destination port 443 and
source port other than 80, dissects to the TCP result carrying the
HTTPS annotation, followed only by the low-TTL warning line exactly
when the TTL byte is under 10. -/
theorem tcp_https_marking (d : List Nat)
    (hlen : 58 ≤ d.length)
    (heth : readU16 false d 12 = 0x0800)
    (hihl : byteAt d 14 &&& 0x0f = 5)
    (hproto : byteAt d 23 = 6)
    (hdst : readU16 false d 36 = 443)
    (hsrc : readU16 false d 34 ≠ 80) :
    analyzePacketData d 0 none =
      ["  " ++ "TCP" ++ ": " ++ ipv4Str d 26 ++ " → " ++ ipv4Str d 30 ++
        (" | Port " ++ toString (readU16 false d 34) ++ " → " ++ toString 443 ++
          " [" ++ tcpFlagsStr (byteAt d 47) ++ "]" ++ " (HTTPS)")] ++
      (if byteAt d 22 < 10 then ["  ⚠️  Low TTL: " ++ toString (byteAt d 22)] else []) := by
  have h1 : ¬(d.length < 14) := by omega
  have h2 : 34 ≤ d.length := by omega
  simp [analyzePacketData, packetLenOf, heth, hihl, hproto, hdst, hsrc, hlen, h1, h2]

/-- Witness for the amended C4 at the concrete 58-byte SYN frame. -/
theorem tcp_https_marking_witness :
    58 ≤ tcpFrame58.length ∧ readU16 false tcpFrame58 12 = 0x0800 ∧
    byteAt tcpFrame58 14 &&& 0x0f = 5 ∧ byteAt tcpFrame58 23 = 6 ∧
    readU16 false tcpFrame58 36 = 443 ∧ readU16 false tcpFrame58 34 ≠ 80 ∧
    analyzePacketData tcpFrame58 0 none =
      ["  TCP: 1.2.3.4 → 5.6.7.8 | Port 1000 → 443 [SYN] (HTTPS)"] :=
  ⟨by decide, by decide, by decide, by decide, by decide, by decide,
    (tcp_https_marking tcpFrame58 (by decide) (by decide) (by decide) (by decide)
      (by decide) (by decide)).trans (by decide)⟩

/-- C5 counterexample: a 28-byte `0x0806` frame — shorter than the 42
bytes the claim requires — still yields the ARP decoding (opcode read at
offset 20, the absent sender/target IP slices rendering empty), because
the source's guard is `packetLen >= 28`, not 42. -/
theorem arp_28byte_frame_decodes :
    analyzePacketData arpFrame28 0 none = ["  ARP Request: Who has ? Tell "] := by
  decide

/-- C5 amended: for a `0x0806` frame the ARP decoding is produced
exactly when the frame has at least 28 bytes (opcode at offset 20,
sender IP from bytes 28-32, target IP from bytes 38-42, clamped when
absent); below 28 bytes only the generic EtherType line appears. -/
theorem arp_threshold (d : List Nat)
    (h14 : 14 ≤ d.length)
    (heth : readU16 false d 12 = 0x0806) :
    (28 ≤ d.length →
      analyzePacketData d 0 none =
        ["  ARP " ++ (if readU16 false d 20 = 1 then "Request"
            else if readU16 false d 20 = 2 then "Reply" else "Unknown") ++
          ": Who has " ++ ipv4Str d 38 ++ "? Tell " ++ ipv4Str d 28]) ∧
    (d.length < 28 → analyzePacketData d 0 none = ["  EtherType: 0x0806"]) := by
  constructor
  · intro h28
    have h1 : ¬(d.length < 14) := by omega
    simp [analyzePacketData, packetLenOf, heth, h1, h28]
  · intro h28
    have h1 : ¬(d.length < 14) := by omega
    have h2 : ¬(28 ≤ d.length) := by omega
    simp [analyzePacketData, packetLenOf, heth, h1, h2]
    decide

/-- Witness for the amended C5: the 28-byte frame decodes as ARP; its
20-byte prefix yields only the EtherType line. -/
theorem arp_threshold_witness :
    14 ≤ arpFrame28.length ∧ readU16 false arpFrame28 12 = 0x0806 ∧
    analyzePacketData arpFrame28 0 none = ["  ARP Request: Who has ? Tell "] ∧
    analyzePacketData (arpFrame28.take 20) 0 none = ["  EtherType: 0x0806"] :=
  ⟨by decide, by decide,
    ((arp_threshold arpFrame28 (by decide) (by decide)).1 (by decide)).trans (by decide),
    (arp_threshold (arpFrame28.take 20) (by decide) (by decide)).2 (by decide)⟩

/-- C10: both parsing loops terminate on every buffer.  Any fuel
exceeding `d.length - offset` suffices, because an accepted legacy
record advances the offset by at least 16 bytes, an accepted PCAPNG
block by its declared length (at least 12), and every other case stops
— so the fuel-free loops are total and the fuel-indexed runs reach
them. -/
theorem parse_loops_terminate (d : List Nat) :
    ∀ (fuel offset count : Nat) (le : Bool), 0 < fuel → d.length < offset + fuel →
      pcapCountLoopF fuel le d offset count = some (pcapCountLoop le d offset count) ∧
      pcapngCountLoopF fuel d offset count = some (pcapngCountLoop d offset count) := by
  intro fuel
  induction fuel with
  | zero => intro offset count le h0 _; omega
  | succ fuel ih =>
    intro offset count le _ hlen
    constructor
    · rw [pcapCountLoop]
      simp only [pcapCountLoopF]
      by_cases h1 : offset + 16 ≤ d.length
      · rw [dif_pos h1, if_pos h1]
        by_cases h2 : readU32 le d (offset + 8) > 65535 ∨
            offset + 16 + readU32 le d (offset + 8) > d.length
        · rw [dif_pos h2, if_pos h2]
        · rw [dif_neg h2, if_neg h2]
          exact (ih (offset + 16 + readU32 le d (offset + 8)) (count + 1) le
            (by omega) (by omega)).1
      · rw [dif_neg h1, if_neg h1]
    · rw [pcapngCountLoop]
      simp only [pcapngCountLoopF]
      by_cases h1 : offset + 8 ≤ d.length
      · rw [dif_pos h1, if_pos h1]
        by_cases h2 : readU32 true d (offset + 4) < 12 ∨
            offset + readU32 true d (offset + 4) > d.length
        · rw [dif_pos h2, if_pos h2]
        · rw [dif_neg h2, if_neg h2]
          exact (ih (offset + readU32 true d (offset + 4)) _ le
            (by omega) (by omega)).2
      · rw [dif_neg h1, if_neg h1]

/-- Witness for C10 on the empty buffer with fuel 1. -/
theorem parse_loops_terminate_witness :
    0 < 1 ∧ ([] : List Nat).length < 0 + 1 ∧
    (pcapCountLoopF 1 true [] 0 0 = some (pcapCountLoop true [] 0 0) ∧
     pcapngCountLoopF 1 [] 0 0 = some (pcapngCountLoop [] 0 0)) :=
  ⟨by decide, by decide, parse_loops_terminate [] 1 0 0 true (by decide) (by decide)⟩

/-- Helper for C8: the source's `find?`-shaped first-match classifier
coincides with the spec-worded ordered-table recursion, for any table. -/
theorem find_eq_classifySpecTable (fn : String) : ∀ table : List (String × List String),
    (match table.find? (fun c => c.2.any fun pat => strIncludes fn pat) with
      | some c => (c.1, if c.1 = "connection" ∨ c.1 = "dns" then "high" else "medium")
      | none => ("other", "low")) = classifySpecTable table fn := by
  intro table
  induction table with
  | nil => simp [classifySpecTable]
  | cons c rest ih =>
    by_cases h : (c.2.any fun pat => strIncludes fn pat) = true
    · cases c
      simp [List.find?_cons_of_pos, h, classifySpecTable]
    · cases c
      rw [List.find?_cons_of_neg _ (by simpa using h)]
      simp only [classifySpecTable]
      rw [if_neg (by simpa using h)]
      exact ih

/-- C8: `categorizeWarpFile` is a pure total function agreeing with the
spec's first-match contract over the fixed ordered category table on
every filename, and in particular maps `daemon_dns.log` to
`(dns, high)` and `unknown-file.xyz` to `(other, low)`. -/
theorem categorize_total_first_match :
    (∀ fn : String, categorizeWarpFile fn = classifySpec fn) ∧
    categorizeWarpFile "daemon_dns.log" = ("dns", "high") ∧
    categorizeWarpFile "unknown-file.xyz" = ("other", "low") :=
  ⟨fun fn => find_eq_classifySpecTable fn warpCategories, by decide, by decide⟩

/-- C6 counterexample: a file named `capture.pcapng` whose bytes begin
with the PCAPNG magic `0x0A0D0D0A` is not handed to the capture parser
(`pcapMetadata` stays empty) but decoded as a text log, because the
coordinator routes by the `.pcap` filename suffix, which `.pcapng`
does not match. -/
theorem pcapng_upload_decoded_as_text :
    readU32 true pcapngUpload.data 0 = 0x0a0d0d0a ∧
    (processUploadedFiles (fun _ => []) [pcapngUpload]).2 = [] ∧
    ((processUploadedFiles (fun _ => []) [pcapngUpload]).1.map fun e => e.filename) =
      ["capture.pcapng"] := by
  refine ⟨by decide, by decide, by decide⟩

/-- C6 amended: the coordinator treats an upload as a capture — invoking
`parsePcapBasic` and collecting the result into `pcapMetadata` — exactly
when its filename ends in `.pcap` (and it is not routed as an archive);
the magic bytes play no role in the routing. -/
theorem pcap_name_routes_to_capture (ez : List Nat → List (String × List Nat)) :
    ∀ (files : List RawFile) (f : RawFile), f ∈ files →
    strEndsWith f.name ".zip" = false → f.fileType ≠ "application/zip" →
    strEndsWith f.name ".pcap" = true →
    (f.name, parsePcapBasic f.data) ∈ (processUploadedFiles ez files).2 := by
  intro files
  induction files with
  | nil => intro f hf _ _ _; simp at hf
  | cons g rest ih =>
    intro f hf hz ht hp
    rcases List.mem_cons.mp hf with rfl | hf
    · simp only [processUploadedFiles]
      rw [if_neg (by simp [hz, ht]), if_pos (by simp [hp])]
      simp
    · simp only [processUploadedFiles]
      exact List.mem_append_right _ (ih f hf hz ht hp)

/-- Witness for the amended C6 at a one-file batch named `trace.pcap`. -/
theorem pcap_name_routes_to_capture_witness :
    RawFile.mk "trace.pcap" "" [] ∈ [RawFile.mk "trace.pcap" "" []] ∧
    strEndsWith "trace.pcap" ".zip" = false ∧
    (RawFile.mk "trace.pcap" "" []).fileType ≠ "application/zip" ∧
    strEndsWith "trace.pcap" ".pcap" = true ∧
    ("trace.pcap", parsePcapBasic []) ∈
      (processUploadedFiles (fun _ => []) [RawFile.mk "trace.pcap" "" []]).2 :=
  ⟨by decide, by decide, by decide, by decide,
    pcap_name_routes_to_capture (fun _ => []) [RawFile.mk "trace.pcap" "" []]
      (RawFile.mk "trace.pcap" "" []) (by decide) (by decide) (by decide) (by decide)⟩

/-- C7 helper: when every entry is high or medium priority, the list
length is the sum of the two filtered lengths. -/
theorem length_eq_high_add_medium : ∀ logs : List LogFileEntry,
    (∀ e ∈ logs, e.priority = "high" ∨ e.priority = "medium") →
    logs.length = (logs.filter fun e => e.priority = "high").length +
      (logs.filter fun e => e.priority = "medium").length := by
  intro logs
  induction logs with
  | nil => simp
  | cons e rest ih =>
    intro h
    have hrest := ih fun e' he' => h e' (by simp [he'])
    have hne : ¬(("high" : String) = "medium") := by decide
    have hne2 : ¬(("medium" : String) = "high") := by decide
    rcases h e (by simp) with he | he
    · simp [List.filter_cons, he, hne, hne2]
      omega
    · simp [List.filter_cons, he, hne, hne2]
      omega

/-- C7: with 15 high-priority and 8 medium-priority log entries, the
evidence set is the first 10 high entries followed by the first 5
medium entries in encounter order — 15 in total — while the response's
`filesProcessed.logFiles` still reports all 23. -/
theorem evidence_selection (logs : List LogFileEntry) (pcaps : List (String × PcapResult))
    (hall : ∀ e ∈ logs, e.priority = "high" ∨ e.priority = "medium")
    (h15 : (logs.filter fun e => e.priority = "high").length = 15)
    (h8 : (logs.filter fun e => e.priority = "medium").length = 8) :
    selectFilesToAnalyze logs =
      (logs.filter fun e => e.priority = "high").take 10 ++
        (logs.filter fun e => e.priority = "medium").take 5 ∧
    (selectFilesToAnalyze logs).length = 15 ∧
    (mkFilesProcessed logs pcaps).logFiles = 23 := by
  refine ⟨rfl, ?_, ?_⟩
  · simp [selectFilesToAnalyze, List.length_take, h15, h8]
  · have := length_eq_high_add_medium logs hall
    simp only [mkFilesProcessed]
    omega

/-- Witness for C7 at a concrete batch of 15 high + 8 medium entries. -/
theorem evidence_selection_witness :
    (∀ e ∈ logs23, e.priority = "high" ∨ e.priority = "medium") ∧
    (logs23.filter fun e => e.priority = "high").length = 15 ∧
    (logs23.filter fun e => e.priority = "medium").length = 8 ∧
    ((selectFilesToAnalyze logs23).length = 15 ∧
      (mkFilesProcessed logs23 []).logFiles = 23) :=
  ⟨by decide, by decide, by decide,
    (evidence_selection logs23 [] (by decide) (by decide) (by decide)).2⟩

/-- C9 counterexample: a file whose single byte `0xFF` is not valid
UTF-8 is not dropped: it appears in `logFiles`, decoded to one U+FFFD
replacement character, because `TextDecoder('utf-8')` in its default
non-fatal mode never throws on malformed input. -/
theorem invalid_utf8_file_kept :
    ((processUploadedFiles (fun _ => []) [RawFile.mk "broken.log" "" [255]]).1.map
      fun e => (e.filename, e.content)) = [("broken.log", "�")] := by
  decide

/-- C9 amended: every uploaded file that is not routed as an archive or
capture — whatever its bytes — is decoded with U+FFFD replacement and
appears in `logFiles`; the batch never aborts and nothing is dropped. -/
theorem text_files_never_dropped (ez : List Nat → List (String × List Nat)) :
    ∀ (files : List RawFile) (f : RawFile), f ∈ files →
    strEndsWith f.name ".zip" = false → f.fileType ≠ "application/zip" →
    strEndsWith f.name ".pcap" = false →
    ({ filename := f.name, content := parseTextFile f.data,
       category := (categorizeWarpFile f.name).1,
       priority := (categorizeWarpFile f.name).2 } : LogFileEntry) ∈
      (processUploadedFiles ez files).1 := by
  intro files
  induction files with
  | nil => intro f hf _ _ _; simp at hf
  | cons g rest ih =>
    intro f hf hz ht hp
    rcases List.mem_cons.mp hf with rfl | hf
    · simp only [processUploadedFiles]
      rw [if_neg (by simp [hz, ht]), if_neg (by simp [hp])]
      simp
    · simp only [processUploadedFiles]
      exact List.mem_append_right _ (ih f hf hz ht hp)

/-- Witness for the amended C9 at the non-UTF-8 one-byte file. -/
theorem text_files_never_dropped_witness :
    RawFile.mk "broken.log" "" [255] ∈ [RawFile.mk "broken.log" "" [255]] ∧
    strEndsWith "broken.log" ".zip" = false ∧
    (RawFile.mk "broken.log" "" [255]).fileType ≠ "application/zip" ∧
    strEndsWith "broken.log" ".pcap" = false ∧
    ({ filename := "broken.log", content := parseTextFile [255],
       category := (categorizeWarpFile "broken.log").1,
       priority := (categorizeWarpFile "broken.log").2 } : LogFileEntry) ∈
      (processUploadedFiles (fun _ => []) [RawFile.mk "broken.log" "" [255]]).1 :=
  ⟨by decide, by decide, by decide, by decide,
    text_files_never_dropped (fun _ => []) [RawFile.mk "broken.log" "" [255]]
      (RawFile.mk "broken.log" "" [255]) (by decide) (by decide) (by decide) (by decide)⟩

end PcapWorker

